import Mathlib

/-!
Verification of the schema-driven query builder and the incremental crawl
planner of the taiwan_stock_analysis repository, as a shallow embedding of

  * taiwan_stock_analysis/database/datatype.py
  * taiwan_stock_analysis/database/mariadbclient.py
  * taiwan_stock_analysis/pipelines.py
  * taiwan_stock_analysis/spiders/daily_trading.py

Python exceptions are modelled by `Except PyError`; Python object identity
(relevant because the dataclasses set `eq=False`) is modelled by an explicit
object id carried in each column value.
-/

namespace TaiwanStock

/-- The Python exceptions raised by the embedded code. -/
inductive PyError where
  | valueError (msg : String)
  | attributeError (attr : String)
  | keyError (key : String)
  | nameError (nm : String)
  | typeError (msg : String)
  | notImplementedError (msg : String)
  deriving DecidableEq, Repr

/-- A Python value handed to the storage layer: an int, a string, or None. -/
inductive PyVal where
  | vint (n : Nat)
  | vstr (s : String)
  | vnone
  deriving DecidableEq, Repr

/-! ## datatype.py -/

/-- `NumericAttribute` enum from datatype.py. -/
inductive NumericAttribute where
  | UNSIGNED
  | SIGNED
  | ZEROFILL
  deriving DecidableEq, Repr

/-- The Python value stored in the signedness field of a numeric column
(named attr here; Lean reserves the source field name): either a member of
`NumericAttribute`, or some other object (Python lets any value be assigned
there; `determine_attr` then raises). -/
inductive AttrValue where
  | member (a : NumericAttribute)
  | invalid
  deriving DecidableEq, Repr

/-- The concrete column classes of datatype.py as a tagged variant.  The
numeric integer classes each fix their `numeric_type` string; `Decimal`
additionally carries `precision` and `scale` (its inherited `attribute`
field is kept but, exactly as in the source, never used by `definition`). -/
inductive ColumnKind where
  | text
  | varChar (length : Nat)
  | tinyInt (attr : AttrValue)
  | smallInt (attr : AttrValue)
  | integer (attr : AttrValue)
  | bigInt (attr : AttrValue)
  | decimal (attr : AttrValue) (precision scale : Nat)
  deriving DecidableEq, Repr

/-- A column object (`DataType` and subclasses, datatype.py).  `oid` is the
Python object identity: the dataclasses are declared with `eq=False`, so
equality and hashing of column objects is identity, not field equality. -/
structure DataType where
  oid : Nat
  name : String
  primary_key : Bool := false
  kind : ColumnKind
  deriving DecidableEq, Repr

/-- `NumericType.determine_attr` (datatype.py lines 98-119).  `className` is
`self.__class__.__name__`, used only in the error message. -/
def determineAttr (className : String) (attr : AttrValue) :
    Except PyError String :=
  if attr = .member .ZEROFILL then .ok "ZEROFILL"
  else if attr = .member .UNSIGNED then .ok "UNSIGNED"
  else if attr = .member .SIGNED then .ok "SIGNED"
  else .error (.valueError ("The attribute of " ++ className ++
    " must be a valid member of NumericAttribute."))

/-- `definition()` of each concrete column class (datatype.py). -/
def definition (c : DataType) : Except PyError String :=
  match c.kind with
  | .text => .ok (c.name ++ " TEXT")
  | .varChar n =>
      .ok (c.name ++ " VARCHAR(" ++ toString n ++ ") CHARACTER SET utf8")
  | .tinyInt a => do
      .ok (c.name ++ " TINYINT " ++ (← determineAttr "TinyInt" a))
  | .smallInt a => do
      .ok (c.name ++ " SMALLINT " ++ (← determineAttr "SmallInt" a))
  | .integer a => do
      .ok (c.name ++ " INT " ++ (← determineAttr "Integer" a))
  | .bigInt a => do
      .ok (c.name ++ " BIGINT " ++ (← determineAttr "BigInt" a))
  | .decimal _ p s =>
      .ok (c.name ++ " DECIMAL(" ++ toString p ++ ", " ++ toString s ++ ")")

/-- The rendering of a valid signedness tag, for stating specifications. -/
def attrSQL : NumericAttribute → String
  | .UNSIGNED => "UNSIGNED"
  | .SIGNED => "SIGNED"
  | .ZEROFILL => "ZEROFILL"

/-! ## mariadbclient.py : MariadbTable -/

/-- An element of the Python sequence passed as `columns`: either a column
object or some other, non-`DataType` Python object. -/
inductive TableEntry where
  | col (c : DataType)
  | other (oid : Nat)
  deriving DecidableEq, Repr

/-- The state of a constructed `MariadbTable`: its name, column list and the
two derived SQL statements. -/
structure MariadbTable where
  table_name : String
  columns : List DataType
  insert_query : String
  table_query : String
  deriving DecidableEq, Repr

/-- The list comprehension
`[column.definition() for column in self._columns]`: each column renders
its DDL fragment, the first raised exception propagating. -/
def mapDefs : List DataType → Except PyError (List String)
  | [] => .ok []
  | c :: cs => do
    let d ← definition c
    let ds ← mapDefs cs
    .ok (d :: ds)

/-- `MariadbTable.__post_init__` (mariadbclient.py lines 44-106) for a
sequence argument.  The duplicate check is the source's
`len(self._columns) != len(set(self._columns))`: the `set` of column
objects dedups by object identity (the dataclasses set `eq=False`), which
`List.dedup` over `DataType` values with distinct `oid`s reproduces. -/
def mariadbTablePostInit (table_name : String) (columns : List TableEntry) :
    Except PyError MariadbTable := do
  if columns.isEmpty then
    throw (.valueError
      "You must provide at least one data type for MariaDB table.")
  unless columns.all (fun e => match e with
      | .col _ => true
      | .other _ => false) do
    throw (.valueError "All elements in columns must be type DataType.")
  let cols := columns.filterMap (fun e => match e with
    | .col c => some c
    | .other _ => none)
  if cols.length ≠ cols.dedup.length then
    throw (.valueError "Duplicate column names are not allowed.")
  let primary := (cols.filter (·.primary_key)).map (·.name)
  let placeholders := String.intercalate ", " (cols.map fun _ => "?")
  let query := "INSERT INTO " ++ table_name ++ " VALUES (" ++ placeholders
    ++ ")"
  let coldefs ← mapDefs cols
  let coldefs := if primary.isEmpty then coldefs else
    coldefs ++ ["PRIMARY KEY (" ++ String.intercalate ", " primary ++ ")"]
  let query := if primary.isEmpty then query else
    query ++ " ON DUPLICATE KEY UPDATE " ++
      String.intercalate ", " (primary.map fun c =>
        c ++ " = VALUES(" ++ c ++ ")")
  pure { table_name := table_name
         columns := cols
         insert_query := query
         table_query := "CREATE TABLE IF NOT EXISTS " ++ table_name ++
           " (" ++ String.intercalate ", " coldefs ++ ")" }

deriving instance DecidableEq for Except

/-! ## Python string and int primitives

The source manipulates strings with `str.split`, `str.replace` and `int`.
They are embedded by structural recursion over the character list so that
concrete runs reduce inside the kernel. -/

/-- Python `str.split(sep)` for a one-character separator, on the character
list: every occurrence of `sep` starts a new (possibly empty) field. -/
def splitChars (sep : Char) : List Char → List (List Char)
  | [] => [[]]
  | c :: cs =>
    if c = sep then [] :: splitChars sep cs
    else match splitChars sep cs with
      | h :: t => (c :: h) :: t
      | [] => [[c]]

/-- Python `s.split(sep)` for a one-character separator. -/
def pySplit (s : String) (sep : Char) : List String :=
  (splitChars sep s.data).map String.mk

/-- Python `s.replace(old, repl)` for a one-character `old`: equal to
`repl.join(s.split(old))`. -/
def pyReplace (s : String) (old : Char) (repl : String) : String :=
  String.intercalate repl (pySplit s old)

/-- Decimal-digit accumulator for `int`. -/
def digitsToNat (acc : Nat) : List Char → Option Nat
  | [] => some acc
  | c :: cs =>
    if '0' ≤ c ∧ c ≤ '9' then digitsToNat (acc * 10 + (c.toNat - '0'.toNat)) cs
    else none

/-- Python `int(s)` on the non-negative decimal literals this system feeds
it ; `none` when `s` is not such a literal (Python raises ValueError). -/
def pyInt (s : String) : Option Nat :=
  if s.data.isEmpty then none else digitsToNat 0 s.data

/-! ## mariadbclient.py : MariadbClient -/

/-- The state a `MariadbClient` carries for the operations embedded here:
the dataclass field `_table`, plus the history of statements executed
through its cursor (each with its bound parameters). -/
structure MariadbClient where
  _table : MariadbTable
  executed : List (String × List PyVal) := []
  deriving DecidableEq, Repr

/-- The attribute names set on a `MariadbClient` instance: the dataclass
field `_table` and the `_connection`/`_cursor` created in `__post_init__`.
`_table_name` (the name the arity error message interpolates) is not among
them — the table name lives at `self._table.table_name`. -/
def mariadbClientAttrs : List String := ["_table", "_connection", "_cursor"]

/-- `MariadbClient.insert` (mariadbclient.py lines 202-218).  On an arity
mismatch the source raises
`ValueError(f"Data items do not match table '{self._table_name}' columns.")`;
Python evaluates the f-string before constructing the ValueError, and the
lookup of `self._table_name` raises AttributeError because no such
attribute exists on the client.  On a length match the upsert statement is
executed with exactly the given values. -/
def MariadbClient.insert (client : MariadbClient) (data : List PyVal) :
    Except PyError MariadbClient :=
  if data.length ≠ client._table.columns.length then
    if "_table_name" ∈ mariadbClientAttrs then
      .error (.valueError "Data items do not match table columns.")
    else
      .error (.attributeError "_table_name")
  else
    .ok { client with
          executed := client.executed ++
            [(client._table.insert_query, data)] }

/-! ## The completion ledger and the crawl planner (daily_trading.py) -/

/-- A row of the completion ledger (`check_table`): columns symbol, year,
month, update_time, keyed by (symbol, year, month). -/
structure CompletionRecord where
  symbol : Nat
  year : Nat
  month : Nat
  update_time : String
  deriving DecidableEq, Repr

/-- The contents of the completion ledger consulted by the planner.  A
missing or uninitialised check database (`self.connection is None` in the
spider) is the empty ledger. -/
abbrev Ledger := List CompletionRecord

/-- `exist(year, month, symbol)` (daily_trading.py lines 87-103): whether a
ledger row matches the unit.  The SQL
`SELECT * FROM check_table WHERE year=:year AND month=:month AND
symbol=:symbol` succeeds iff some record has all three fields equal. -/
def exist (ledger : Ledger) (year month symbol : Nat) : Bool :=
  ledger.any fun r => r.year == year && r.month == month && r.symbol == symbol

/-- `next_month` (daily_trading.py lines 76-85). -/
def nextMonth (year month : Nat) : Nat × Nat :=
  if month = 12 then (year + 1, 1) else (year, month + 1)

/-- The floor adjustment of daily_trading.py lines 122-124: begin from the
listing month unless the listing year precedes `start_year = 2010`, in
which case begin from `(start_year, start_month) = (2010, 1)`. -/
def startMonth (year month : Nat) : Nat × Nat :=
  if year < 2010 then (2010, 1) else (year, month)

/-- A month's position on the time line, for ordering and termination. -/
def monthIdx (ym : Nat × Nat) : Nat := 12 * ym.1 + ym.2

/-- The `while end_year != year or end_month != month` loop of
daily_trading.py lines 126-141: starting from `ym` and stepping with
`next_month`, emit every month for which no ledger record exists, stopping
on reaching `e`.  The loop in the source has no bound; `fuel` makes the
recursion structural, and the caller passes enough fuel for every run on
which the source loop terminates (when `ym` starts beyond `e` the source
loops forever; here the fuel runs out and the list so far is returned). -/
def crawlLoop (ledger : Ledger) (symbol : Nat) :
    Nat → Nat × Nat → Nat × Nat → List (Nat × Nat)
  | 0, _, _ => []
  | fuel + 1, ym, e =>
    if ym = e then []
    else if exist ledger ym.1 ym.2 symbol then
      crawlLoop ledger symbol fuel (nextMonth ym.1 ym.2) e
    else
      ym :: crawlLoop ledger symbol fuel (nextMonth ym.1 ym.2) e

/-- A well-formed calendar month number. -/
def validMonth (m : Nat) : Prop := 1 ≤ m ∧ m ≤ 12

instance (m : Nat) : Decidable (validMonth m) := instDecidableAnd

/-- `n` applications of `next_month`. -/
def monthAdd : Nat × Nat → Nat → Nat × Nat
  | s, 0 => s
  | s, n + 1 => monthAdd (nextMonth s.1 s.2) n

/-- The chronological run of `n` months starting at `s`. -/
def monthSeq (s : Nat × Nat) (n : Nat) : List (Nat × Nat) :=
  (List.range n).map (monthAdd s)

/-- The planning pass of `start_requests` for one security, after the
listing date has been parsed: floor-adjust the starting month, set the end
sentinel to the month after the current one, and run the crawl loop.  The
emitted list is the (year, month) of each yielded Request, in order. -/
def startRequestsCore (ledger : Ledger) (current : Nat × Nat)
    (symbol year month : Nat) : List (Nat × Nat) :=
  let s := startMonth year month
  let e := nextMonth current.1 current.2
  crawlLoop ledger symbol (monthIdx e + 1 - monthIdx s) s e

/-- The planning pass of `start_requests` for one security, from the raw
`listing_date` string as read from the stock-info table:
`year, month, day = listing_date.split("/")` then `int` conversion
(daily_trading.py lines 110-114). -/
def startRequestsFor (ledger : Ledger) (current : Nat × Nat) (symbol : Nat)
    (listing_date : String) : Except PyError (List (Nat × Nat)) := do
  match pySplit listing_date '/' with
  | [ys, ms, ds] =>
    let year ← match pyInt ys with
      | some n => pure n
      | none => throw (.valueError "invalid literal for int()")
    let month ← match pyInt ms with
      | some n => pure n
      | none => throw (.valueError "invalid literal for int()")
    let _day ← match pyInt ds with
      | some n => pure n
      | none => throw (.valueError "invalid literal for int()")
    pure (startRequestsCore ledger current symbol year month)
  | _ => throw (.valueError "not enough values to unpack")

/-! ## pipelines.py : DailyTradingPipeline.process_item -/

/-- Lookup in a Python dict modelled as an insertion-ordered association
list with unique keys. -/
def dictGet (d : List (String × PyVal)) (k : String) : Option PyVal :=
  match d with
  | [] => none
  | p :: rest => if p.1 = k then some p.2 else dictGet rest k

/-- `d[k] = v` on a Python dict: replace the value in place when the key is
present, append the pair otherwise. -/
def dictSet (d : List (String × PyVal)) (k : String) (v : PyVal) :
    List (String × PyVal) :=
  match d with
  | [] => [(k, v)]
  | p :: rest => if p.1 = k then (k, v) :: rest else p :: dictSet rest k v

/-- The body of the `for data in data_list` loop of
`DailyTradingPipeline.process_item` (pipelines.py lines 622-635), building
`formatted_data` for one data row `date :: rest`: the symbol, the split
date fields, then each remaining field with the `"--"` sentinel mapped to
None and thousands-separator commas stripped otherwise. -/
def formatRow (symbol : Nat) (fields : List String) (date : String)
    (rest : List String) : List (String × PyVal) :=
  let formatted_data : List (String × PyVal) := [("symbol", .vint symbol)]
  let formatted_data := (List.zip ["year", "month", "day"]
      (pySplit date '/')).foldl
    (fun d p => dictSet d p.1 (.vstr p.2)) formatted_data
  (List.zip fields.tail rest).foldl
    (fun d p =>
      if p.2 = "--" then dictSet d p.1 .vnone
      else dictSet d p.1 (.vstr (pyReplace p.2 ',' "")))
    formatted_data

/-- The rows passed to `self.client.insert(*formatted_data.values())`, one
per element of `data_list` (each element is its date plus the remaining
cells). -/
def processItemRows (symbol : Nat) (fields : List String)
    (data_list : List (String × List String)) : List (List PyVal) :=
  data_list.map fun row => (formatRow symbol fields row.1 row.2).map Prod.snd

/-- Python `int(v)` on a dict value. -/
def pyIntV : PyVal → Except PyError Nat
  | .vint n => .ok n
  | .vstr s =>
    match pyInt s with
    | some n => .ok n
    | none => .error (.valueError "invalid literal for int()")
  | .vnone => .error (.typeError "int() argument cannot be NoneType")

/-- The completion-recording tail of `process_item` (pipelines.py lines
638-652).  `current` is the freshly computed Taipei wall-clock month
(`datetime.utcnow() + timedelta(hours=8)`) and `now_str` its
`strftime("%Y/%m/%d/%H:%M")` rendering.  The year and month are re-read
from the *last* row's `formatted_data` (Python leaves the loop variable
bound; an empty `data_list` leaves it unbound, a NameError).  A ledger row
is written iff the ingested month differs from the current month. -/
def processItemTail (current : Nat × Nat) (now_str : String) (symbol : Nat)
    (fields : List String) (data_list : List (String × List String)) :
    Except PyError (Option CompletionRecord) := do
  match data_list.getLast? with
  | none => throw (.nameError "formatted_data")
  | some (date, rest) =>
    let formatted_data := formatRow symbol fields date rest
    let yearv ← match dictGet formatted_data "year" with
      | some v => pure v
      | none => throw (.keyError "year")
    let monthv ← match dictGet formatted_data "month" with
      | some v => pure v
      | none => throw (.keyError "month")
    let year ← pyIntV yearv
    let month ← pyIntV monthv
    if current.1 ≠ year ∨ current.2 ≠ month then
      pure (some { symbol := symbol, year := year, month := month,
                   update_time := now_str })
    else
      pure none

/-! ## daily_trading.py : DailyTradingSpider.__init__ -/

/-- The names bound in the class body of `DailyTradingPipeline`
(pipelines.py lines 513-662): the four schema attributes and the five
methods.  Neither `output_folder_name` nor `db_name` is among them, and the
class has no base besides `object`. -/
def dailyTradingPipelineClassAttrs : List String :=
  ["data_type", "table_name", "check_data_type", "check_table_name",
   "_create_check_table", "open_spider", "commit", "process_item",
   "close_spider"]

/-- Python attribute lookup `DailyTradingPipeline.<a>`. -/
def getattrDailyTradingPipeline (a : String) : Except PyError Unit :=
  if a ∈ dailyTradingPipelineClassAttrs then .ok ()
  else .error (.attributeError a)

/-- `DailyTradingSpider.__init__` (daily_trading.py lines 29-51), up to its
first effects: after the pure path computation it reads
`DailyTradingPipeline.output_folder_name` (line 34) and then
`DailyTradingPipeline.db_name` (line 35); only afterwards would it touch
the filesystem and leave the constructor.  `start_requests`, the planner
entry point, can only run on a constructed spider instance. -/
def dailyTradingSpiderInit : Except PyError Unit := do
  let _ ← getattrDailyTradingPipeline "output_folder_name"
  let _ ← getattrDailyTradingPipeline "db_name"
  pure ()

/-- A two-column table (primary key on the first column) and a client over
it, exercising `MariadbClient.insert`. -/
def arityDemoTable : MariadbTable :=
  { table_name := "t"
    columns := [⟨0, "a", true, .text⟩, ⟨1, "b", false, .text⟩]
    insert_query :=
      "INSERT INTO t VALUES (?, ?) ON DUPLICATE KEY UPDATE a = VALUES(a)"
    table_query :=
      "CREATE TABLE IF NOT EXISTS t (a TEXT, b TEXT, PRIMARY KEY (a))" }

/-- A client over `arityDemoTable` with no statement executed yet. -/
def arityDemoClient : MariadbClient := { _table := arityDemoTable }

/-! ## Lemmas: month arithmetic and the crawl loop -/

theorem nextMonth_idx {m : Nat} (y : Nat) (h : validMonth m) :
    monthIdx (nextMonth y m) = monthIdx (y, m) + 1 := by
  obtain ⟨h1, h2⟩ := h
  unfold nextMonth monthIdx
  split <;> simp <;> omega

theorem nextMonth_valid {m : Nat} (y : Nat) (h : validMonth m) :
    validMonth (nextMonth y m).2 := by
  obtain ⟨h1, h2⟩ := h
  unfold nextMonth validMonth
  split <;> simp <;> omega

theorem monthAdd_idx (n : Nat) (s : Nat × Nat) (hs : validMonth s.2) :
    monthIdx (monthAdd s n) = monthIdx s + n ∧ validMonth (monthAdd s n).2 := by
  induction n generalizing s with
  | zero => simpa [monthAdd] using hs
  | succ n ih =>
    have h1 := nextMonth_idx s.1 hs
    have h2 := nextMonth_valid s.1 hs
    have h3 := ih (nextMonth s.1 s.2) h2
    simp only [monthAdd] at h3 ⊢
    simp only [monthIdx] at h1 h3 ⊢
    exact ⟨by omega, h3.2⟩

theorem monthIdx_inj {a b : Nat × Nat} (ha : validMonth a.2)
    (hb : validMonth b.2) (h : monthIdx a = monthIdx b) : a = b := by
  obtain ⟨a1, a2⟩ := a
  obtain ⟨b1, b2⟩ := b
  simp only [monthIdx, validMonth] at ha hb h ⊢
  simp only [Prod.mk.injEq]
  omega

theorem monthSeq_succ (s : Nat × Nat) (n : Nat) :
    monthSeq s (n + 1) = s :: monthSeq (nextMonth s.1 s.2) n := by
  simp only [monthSeq, List.range_succ_eq_map, List.map_cons, List.map_map]
  rfl

theorem crawlLoop_eq (ledger : Ledger) (sym : Nat) (n : Nat) (s : Nat × Nat)
    (hs : validMonth s.2) :
    crawlLoop ledger sym (n + 1) s (monthAdd s n) =
      (monthSeq s n).filter (fun u => !exist ledger u.1 u.2 sym) := by
  induction n generalizing s with
  | zero => simp [crawlLoop, monthSeq, monthAdd]
  | succ n ih =>
    have hnext := nextMonth_valid s.1 hs
    have hne : s ≠ monthAdd s (n + 1) := by
      intro heq
      have := (monthAdd_idx (n + 1) s hs).1
      rw [← heq] at this
      omega
    have key : crawlLoop ledger sym (n + 1 + 1) s (monthAdd s (n + 1)) =
        if exist ledger s.1 s.2 sym then
          crawlLoop ledger sym (n + 1) (nextMonth s.1 s.2)
            (monthAdd (nextMonth s.1 s.2) n)
        else
          s :: crawlLoop ledger sym (n + 1) (nextMonth s.1 s.2)
            (monthAdd (nextMonth s.1 s.2) n) := by
      conv_lhs => rw [crawlLoop]
      rw [if_neg hne]
      rfl
    rw [key, ih (nextMonth s.1 s.2) hnext, monthSeq_succ, List.filter_cons]
    by_cases hex : exist ledger s.1 s.2 sym <;> simp [hex]

theorem monthSeq_mem {s : Nat × Nat} (hs : validMonth s.2) (n : Nat)
    (u : Nat × Nat) :
    u ∈ monthSeq s n ↔
      validMonth u.2 ∧ monthIdx s ≤ monthIdx u ∧
        monthIdx u < monthIdx s + n := by
  constructor
  · intro hu
    obtain ⟨i, hi, rfl⟩ := List.mem_map.1 hu
    rw [List.mem_range] at hi
    have := monthAdd_idx i s hs
    exact ⟨this.2, by omega, by omega⟩
  · rintro ⟨hv, hle, hlt⟩
    have hadd := monthAdd_idx (monthIdx u - monthIdx s) s hs
    have : monthAdd s (monthIdx u - monthIdx s) = u :=
      monthIdx_inj hadd.2 hv (by omega)
    exact List.mem_map.2
      ⟨monthIdx u - monthIdx s, List.mem_range.2 (by omega), this⟩

theorem monthSeq_pairwise {s : Nat × Nat} (hs : validMonth s.2) (n : Nat) :
    (monthSeq s n).Pairwise (fun a b => monthIdx a < monthIdx b) := by
  refine List.Pairwise.map (monthAdd s) ?_ (List.pairwise_lt_range n)
  intro i j hij
  have hi := monthAdd_idx i s hs
  have hj := monthAdd_idx j s hs
  omega

theorem startMonth_valid {lm : Nat} (ly : Nat) (h : validMonth lm) :
    validMonth (startMonth ly lm).2 := by
  unfold startMonth
  split <;> simpa [validMonth]

theorem startRequestsCore_eq (ledger : Ledger) (cy cm sym ly lm : Nat)
    (hcm : validMonth cm) (hlm : validMonth lm)
    (hle : monthIdx (startMonth ly lm) ≤ monthIdx (cy, cm)) :
    startRequestsCore ledger (cy, cm) sym ly lm =
      (monthSeq (startMonth ly lm)
          (monthIdx (cy, cm) + 1 - monthIdx (startMonth ly lm))).filter
        (fun u => !exist ledger u.1 u.2 sym) := by
  have hsv := startMonth_valid ly hlm
  set s := startMonth ly lm with hs
  set d := monthIdx (cy, cm) + 1 - monthIdx s with hd
  have hidx : monthIdx (nextMonth cy cm) = monthIdx (cy, cm) + 1 :=
    nextMonth_idx cy hcm
  have hend : nextMonth cy cm = monthAdd s d := by
    refine monthIdx_inj (nextMonth_valid cy hcm) (monthAdd_idx d s hsv).2 ?_
    have := (monthAdd_idx d s hsv).1
    omega
  have hfuel : monthIdx (nextMonth cy cm) + 1 - monthIdx s = d + 1 := by omega
  show crawlLoop ledger sym (monthIdx (nextMonth cy cm) + 1 - monthIdx s) s
      (nextMonth cy cm) =
    List.filter (fun u => !exist ledger u.1 u.2 sym) (monthSeq s d)
  rw [hfuel, hend]
  exact crawlLoop_eq ledger sym d s hsv

theorem startRequestsCore_nil_eq (cy cm sym ly lm : Nat)
    (hcm : validMonth cm) (hlm : validMonth lm)
    (hle : monthIdx (startMonth ly lm) ≤ monthIdx (cy, cm)) :
    startRequestsCore [] (cy, cm) sym ly lm =
      monthSeq (startMonth ly lm)
        (monthIdx (cy, cm) + 1 - monthIdx (startMonth ly lm)) := by
  rw [startRequestsCore_eq [] cy cm sym ly lm hcm hlm hle]
  refine List.filter_eq_self.mpr ?_
  intro a _
  simp [exist]

theorem monthSeq_head (s : Nat × Nat) (d : Nat) (hd : 1 ≤ d) :
    (monthSeq s d).head? = some s := by
  obtain ⟨k, rfl⟩ : ∃ k, d = k + 1 := ⟨d - 1, by omega⟩
  rw [monthSeq_succ]
  rfl

theorem monthSeq_getLast (s : Nat × Nat) (k : Nat) :
    (monthSeq s (k + 1)).getLast? = some (monthAdd s k) := by
  unfold monthSeq
  rw [List.range_succ, List.map_append]
  exact List.getLast?_concat _

/-! ## Lemmas: Python dicts and row formatting -/

theorem dictSet_fresh (d : List (String × PyVal)) (k : String) (v : PyVal)
    (h : ∀ p ∈ d, p.1 ≠ k) : dictSet d k v = d ++ [(k, v)] := by
  induction d with
  | nil => rfl
  | cons p rest ih =>
    have hp : p.1 ≠ k := h p (List.mem_cons_self p rest)
    simp only [dictSet, if_neg hp, List.cons_append, List.cons.injEq, true_and]
    exact ih fun q hq => h q (List.mem_cons_of_mem p hq)

theorem foldl_dictSet_transform (g : String × String → PyVal)
    (l : List (String × String)) :
    ∀ d : List (String × PyVal), ((l.map Prod.fst).Nodup) →
      (∀ q ∈ l, ∀ p ∈ d, p.1 ≠ q.1) →
      l.foldl (fun d p => dictSet d p.1 (g p)) d =
        d ++ l.map (fun p => (p.1, g p)) := by
  induction l with
  | nil => simp
  | cons q rest ih =>
    intro d hnodup hfresh
    simp only [List.map_cons, List.nodup_cons] at hnodup
    have h1 : dictSet d q.1 (g q) = d ++ [(q.1, g q)] :=
      dictSet_fresh d q.1 (g q) fun p hp =>
        hfresh q (List.mem_cons_self q rest) p hp
    simp only [List.foldl_cons, h1, List.map_cons]
    rw [ih (d ++ [(q.1, g q)]) hnodup.2 ?_]
    · simp
    · intro r hr p hp
      rcases List.mem_append.1 hp with hp | hp
      · exact hfresh r (List.mem_cons_of_mem q hr) p hp
      · simp only [List.mem_singleton] at hp
        subst hp
        intro hcontra
        exact hnodup.1 (hcontra ▸ List.mem_map_of_mem Prod.fst hr)

theorem map_fst_zip_sublist (l1 : List String) (l2 : List String) :
    ((List.zip l1 l2).map Prod.fst).Sublist l1 := by
  induction l1 generalizing l2 with
  | nil => simp
  | cons a l1 ih =>
    cases l2 with
    | nil => simp
    | cons b l2 =>
      simp only [List.zip_cons_cons, List.map_cons]
      exact (ih l2).cons₂ a

theorem formatRow_eq (symbol : Nat) (fields : List String) (date : String)
    (rest : List String) (ys ms ds : String)
    (hsplit : pySplit date '/' = [ys, ms, ds])
    (hnodup : fields.tail.Nodup)
    (hdisj : ∀ f ∈ fields.tail,
      f ≠ "symbol" ∧ f ≠ "year" ∧ f ≠ "month" ∧ f ≠ "day") :
    formatRow symbol fields date rest =
      [("symbol", .vint symbol), ("year", .vstr ys), ("month", .vstr ms),
       ("day", .vstr ds)] ++
        (List.zip fields.tail rest).map (fun p =>
          (p.1, if p.2 = "--" then PyVal.vnone
                else PyVal.vstr (pyReplace p.2 ',' ""))) := by
  unfold formatRow
  rw [hsplit]
  show (fields.tail.zip rest).foldl
      (fun d p => if p.2 = "--" then dictSet d p.1 PyVal.vnone
        else dictSet d p.1 (PyVal.vstr (pyReplace p.2 ',' "")))
      ((["year", "month", "day"].zip [ys, ms, ds]).foldl
        (fun d p => dictSet d p.1 (PyVal.vstr p.2))
        [("symbol", PyVal.vint symbol)]) = _
  have hd1 : (List.zip ["year", "month", "day"] [ys, ms, ds]).foldl
      (fun d p => dictSet d p.1 (PyVal.vstr p.2))
      [("symbol", PyVal.vint symbol)] =
      [("symbol", PyVal.vint symbol), ("year", PyVal.vstr ys),
       ("month", PyVal.vstr ms), ("day", PyVal.vstr ds)] := rfl
  rw [hd1]
  have hfun : (fun (d : List (String × PyVal)) (p : String × String) =>
      if p.2 = "--" then dictSet d p.1 PyVal.vnone
      else dictSet d p.1 (PyVal.vstr (pyReplace p.2 ',' ""))) =
      (fun d p => dictSet d p.1
        (if p.2 = "--" then PyVal.vnone
         else PyVal.vstr (pyReplace p.2 ',' ""))) := by
    funext d p
    by_cases h : p.2 = "--" <;> simp [h]
  rw [hfun]
  refine foldl_dictSet_transform _ _ _
    ((map_fst_zip_sublist fields.tail rest).nodup hnodup) ?_
  intro q hq p hp
  obtain ⟨q1, q2⟩ := q
  have hq1 : q1 ∈ fields.tail := (List.of_mem_zip hq).1
  have h4 := hdisj q1 hq1
  simp only [List.mem_cons, List.mem_singleton, List.not_mem_nil, or_false]
    at hp
  rcases hp with rfl | rfl | rfl | rfl
  · exact fun h => h4.1 h.symm
  · exact fun h => h4.2.1 h.symm
  · exact fun h => h4.2.2.1 h.symm
  · exact fun h => h4.2.2.2 h.symm

/-! ## Lemmas: table construction -/

theorem intercalate_go_concat (s a : String) (as : List String) :
    ∀ acc : String, String.intercalate.go acc s (as ++ [a]) =
      String.intercalate.go acc s as ++ s ++ a := by
  induction as with
  | nil => intro acc; rfl
  | cons b bs ih => intro acc; exact ih (acc ++ s ++ b)

theorem intercalate_concat (s a : String) (l : List String) (h : l ≠ []) :
    String.intercalate s (l ++ [a]) = String.intercalate s l ++ s ++ a := by
  cases l with
  | nil => exact absurd rfl h
  | cons b bs =>
    show String.intercalate.go b s (bs ++ [a]) = _
    rw [intercalate_go_concat]
    rfl

theorem filterMap_col_map (cols : List DataType) :
    (cols.map TableEntry.col).filterMap (fun e => match e with
      | .col c => some c
      | .other _ => none) = cols := by
  induction cols with
  | nil => rfl
  | cons c cs ih => simp [List.filterMap_cons, ih]

theorem mapDefs_ok_length :
    ∀ (l : List DataType) (r : List String), mapDefs l = Except.ok r →
      r.length = l.length := by
  intro l
  induction l with
  | nil =>
    intro r h
    simp only [mapDefs, Except.ok.injEq] at h
    simp [← h]
  | cons c cs ih =>
    intro r h
    simp only [mapDefs, bind, Except.bind] at h
    cases hfa : definition c with
    | error e => simp [hfa] at h
    | ok d =>
      simp only [hfa] at h
      cases hrest : mapDefs cs with
      | error e => simp [hrest] at h
      | ok ds =>
        simp only [hrest, Except.ok.injEq] at h
        subst h
        simp [ih ds hrest]

theorem all_col_map (cols : List DataType) :
    (cols.map TableEntry.col).all (fun e => match e with
      | .col _ => true
      | .other _ => false) = true := by
  induction cols with
  | nil => rfl
  | cons c cs ih => simpa using ih

/-! ## Claims -/

/-- Claim C1: for every table built from a non-empty, validly-typed column
sequence (every entry a column object, every definition rendering
succeeding, no object repeated), construction derives exactly the two
statements: `createStatement` is
`CREATE TABLE IF NOT EXISTS <name> (<col defs>[, PRIMARY KEY (<pk cols>)])`
with the PRIMARY KEY clause appended only when at least one column is
flagged primary key, listing the primary-key column names in declared
order; and `upsertStatement` is `INSERT INTO <name> VALUES (...)` with one
placeholder per column, followed by an
`ON DUPLICATE KEY UPDATE <col> = VALUES(<col>), ...` clause listing every
primary-key column name, appended only when at least one primary key
exists. -/
theorem table_derives_create_and_upsert (tn : String) (cols : List DataType)
    (defs : List String) (hne : cols ≠ [])
    (hdedup : cols.dedup.length = cols.length)
    (hdefs : mapDefs cols = Except.ok defs) :
    mariadbTablePostInit tn (cols.map TableEntry.col) = Except.ok
      { table_name := tn
        columns := cols
        insert_query :=
          "INSERT INTO " ++ tn ++ " VALUES (" ++
            String.intercalate ", " (cols.map fun _ => "?") ++ ")" ++
          (if ((cols.filter (·.primary_key)).map (·.name)).isEmpty then ""
           else " ON DUPLICATE KEY UPDATE " ++
             String.intercalate ", "
               (((cols.filter (·.primary_key)).map (·.name)).map fun c =>
                 c ++ " = VALUES(" ++ c ++ ")"))
        table_query :=
          "CREATE TABLE IF NOT EXISTS " ++ tn ++ " (" ++
            String.intercalate ", " defs ++
          (if ((cols.filter (·.primary_key)).map (·.name)).isEmpty then ""
           else ", PRIMARY KEY (" ++
             String.intercalate ", "
               ((cols.filter (·.primary_key)).map (·.name)) ++ ")") ++ ")" } := by
  have hdlen : defs.length = cols.length := mapDefs_ok_length cols defs hdefs
  have hdne : defs ≠ [] := by
    intro hnil
    apply hne
    cases cols with
    | nil => rfl
    | cons c cs => subst hnil; simp at hdlen
  have h1 : (cols.map TableEntry.col).isEmpty = false := by
    cases cols with
    | nil => exact absurd rfl hne
    | cons c cs => rfl
  have h3 := filterMap_col_map cols
  have h4 : ¬(cols.length ≠ cols.dedup.length) := fun hc => hc hdedup.symm
  unfold mariadbTablePostInit
  simp only [h1, all_col_map, h3, Bool.false_eq_true, if_false, if_neg h4,
    hdefs, bind, Except.bind, pure, Except.pure, if_true]
  by_cases hpk : ((cols.filter (fun x => x.primary_key)).map
      (fun x => x.name)).isEmpty = true
  · simp only [hpk, if_true]
    simp
  · simp only [hpk, Bool.false_eq_true, if_false]
    rw [intercalate_concat _ _ defs hdne]
    congr 1
    congr 1
    · apply String.ext
      simp only [String.data_append]
      simp [List.append_assoc]
    · apply String.ext
      have hd : (", PRIMARY KEY (" : String).data =
          (", " : String).data ++ ("PRIMARY KEY (" : String).data := by decide
      simp only [String.data_append, hd]
      simp [List.append_assoc]

/-- Concrete run of Claim C1 on a two-column table with one primary key. -/
theorem table_derives_create_and_upsert_witness :
    ([⟨0, "a", true, .text⟩, ⟨1, "b", false, .varChar 25⟩] : List DataType) ≠ []
    ∧ ([⟨0, "a", true, .text⟩, ⟨1, "b", false, .varChar 25⟩] :
        List DataType).dedup.length =
        ([⟨0, "a", true, .text⟩, ⟨1, "b", false, .varChar 25⟩] :
          List DataType).length
    ∧ mapDefs [⟨0, "a", true, .text⟩, ⟨1, "b", false, .varChar 25⟩] =
        Except.ok ["a TEXT", "b VARCHAR(25) CHARACTER SET utf8"]
    ∧ mariadbTablePostInit "t"
        (([⟨0, "a", true, .text⟩, ⟨1, "b", false, .varChar 25⟩] :
          List DataType).map TableEntry.col) = Except.ok
        { table_name := "t"
          columns := [⟨0, "a", true, .text⟩, ⟨1, "b", false, .varChar 25⟩]
          insert_query :=
            "INSERT INTO " ++ "t" ++ " VALUES (" ++
              String.intercalate ", "
                (([⟨0, "a", true, .text⟩, ⟨1, "b", false, .varChar 25⟩] :
                  List DataType).map fun _ => "?") ++ ")" ++
            (if ((([⟨0, "a", true, .text⟩, ⟨1, "b", false, .varChar 25⟩] :
                List DataType).filter (·.primary_key)).map
                (·.name)).isEmpty then ""
             else " ON DUPLICATE KEY UPDATE " ++
               String.intercalate ", "
                 (((([⟨0, "a", true, .text⟩, ⟨1, "b", false, .varChar 25⟩] :
                   List DataType).filter (·.primary_key)).map
                   (·.name)).map fun c => c ++ " = VALUES(" ++ c ++ ")"))
          table_query :=
            "CREATE TABLE IF NOT EXISTS " ++ "t" ++ " (" ++
              String.intercalate ", "
                ["a TEXT", "b VARCHAR(25) CHARACTER SET utf8"] ++
            (if ((([⟨0, "a", true, .text⟩, ⟨1, "b", false, .varChar 25⟩] :
                List DataType).filter (·.primary_key)).map
                (·.name)).isEmpty then ""
             else ", PRIMARY KEY (" ++
               String.intercalate ", "
                 ((([⟨0, "a", true, .text⟩, ⟨1, "b", false, .varChar 25⟩] :
                   List DataType).filter (·.primary_key)).map
                   (·.name)) ++ ")") ++ ")" } :=
  ⟨by decide, by decide, by decide,
    table_derives_create_and_upsert "t"
      [⟨0, "a", true, .text⟩, ⟨1, "b", false, .varChar 25⟩]
      ["a TEXT", "b VARCHAR(25) CHARACTER SET utf8"]
      (by decide) (by decide) (by decide)⟩

/-- Claim C2: over any ledger state, an enumerated (security, year, month)
unit is emitted as a pending fetch iff no completion record exists for it;
a recorded unit is never re-emitted over the same ledger state; and the
current month (when unrecorded) is emitted on every pass. -/
theorem planner_pending_iff_no_record (ledger : Ledger) (cy cm sym ly lm : Nat)
    (hcm : validMonth cm) (hlm : validMonth lm)
    (hle : monthIdx (startMonth ly lm) ≤ monthIdx (cy, cm)) :
    (∀ u : Nat × Nat, validMonth u.2 →
      monthIdx (startMonth ly lm) ≤ monthIdx u →
      monthIdx u ≤ monthIdx (cy, cm) →
      (u ∈ startRequestsCore ledger (cy, cm) sym ly lm ↔
        exist ledger u.1 u.2 sym = false))
    ∧ (∀ u : Nat × Nat, exist ledger u.1 u.2 sym = true →
        u ∉ startRequestsCore ledger (cy, cm) sym ly lm)
    ∧ (exist ledger cy cm sym = false →
        (cy, cm) ∈ startRequestsCore ledger (cy, cm) sym ly lm) := by
  have hsv := startMonth_valid ly hlm
  rw [startRequestsCore_eq ledger cy cm sym ly lm hcm hlm hle]
  refine ⟨?_, ?_, ?_⟩
  · intro u hv h1 h2
    rw [List.mem_filter, monthSeq_mem hsv]
    constructor
    · rintro ⟨-, hex⟩
      simpa using hex
    · intro hex
      exact ⟨⟨hv, h1, by omega⟩, by simp [hex]⟩
  · intro u hex hmem
    rw [List.mem_filter] at hmem
    simp [hex] at hmem
  · intro hex
    rw [List.mem_filter, monthSeq_mem hsv]
    exact ⟨⟨hcm, hle, by omega⟩, by simp [hex]⟩

/-- Concrete run of Claim C2: with (1101, 2024, 4) recorded and now =
2024-06, the recorded April unit is skipped and the open June unit is
emitted. -/
theorem planner_pending_iff_no_record_witness :
    validMonth 6 ∧ validMonth 3
    ∧ monthIdx (startMonth 2024 3) ≤ monthIdx ((2024 : Nat), (6 : Nat))
    ∧ ((2024, 4) ∉
        startRequestsCore [⟨1101, 2024, 4, "ts"⟩] (2024, 6) 1101 2024 3)
    ∧ ((2024, 6) ∈
        startRequestsCore [⟨1101, 2024, 4, "ts"⟩] (2024, 6) 1101 2024 3) :=
  ⟨by decide, by decide, by decide,
    (planner_pending_iff_no_record [⟨1101, 2024, 4, "ts"⟩] 2024 6 1101 2024 3
      (by decide) (by decide) (by decide)).2.1 (2024, 4) (by decide),
    (planner_pending_iff_no_record [⟨1101, 2024, 4, "ts"⟩] 2024 6 1101 2024 3
      (by decide) (by decide) (by decide)).2.2 (by decide)⟩

/-- Claim C3: after a unit's rows are ingested, a completion record for
(security, year, month) carrying the freshly rendered now is returned iff
the ingested (year, month) differs from the current month; for the current
month nothing is written. -/
theorem completion_record_iff_past_month (cy cm : Nat) (now_str : String)
    (symbol : Nat) (fields : List String)
    (data_list : List (String × List String)) (date : String)
    (rest : List String) (ys ms ds : String) (year month : Nat)
    (hlast : data_list.getLast? = some (date, rest))
    (hsplit : pySplit date '/' = [ys, ms, ds])
    (hnodup : fields.tail.Nodup)
    (hdisj : ∀ f ∈ fields.tail,
      f ≠ "symbol" ∧ f ≠ "year" ∧ f ≠ "month" ∧ f ≠ "day")
    (hy : pyInt ys = some year) (hm : pyInt ms = some month) :
    ((cy, cm) ≠ (year, month) →
      processItemTail (cy, cm) now_str symbol fields data_list =
        Except.ok (some { symbol := symbol, year := year, month := month,
                          update_time := now_str }))
    ∧ ((cy, cm) = (year, month) →
      processItemTail (cy, cm) now_str symbol fields data_list =
        Except.ok none) := by
  have hrow := formatRow_eq symbol fields date rest ys ms ds hsplit hnodup hdisj
  have hyear : dictGet (formatRow symbol fields date rest) "year" =
      some (PyVal.vstr ys) := by
    rw [hrow]
    simp [dictGet]
  have hmonth : dictGet (formatRow symbol fields date rest) "month" =
      some (PyVal.vstr ms) := by
    rw [hrow]
    simp [dictGet]
  unfold processItemTail
  rw [hlast]
  simp only [hyear, hmonth, pyIntV, hy, hm, Except.instMonad, Except.bind,
    Except.pure, bind, pure]
  constructor
  · intro hne
    have hor : cy ≠ year ∨ cm ≠ month := by
      by_contra hc
      push_neg at hc
      exact hne (by rw [hc.1, hc.2])
    split_ifs with h
    all_goals first
    | rfl
    | exact absurd hor h
  · rintro heq
    have h1 : cy = year := congrArg Prod.fst heq
    have h2 : cm = month := congrArg Prod.snd heq
    subst h1
    subst h2
    split_ifs with h
    all_goals first
    | rfl
    | (rcases h with h | h <;> exact absurd rfl h)

/-- Concrete run of Claim C3: ingesting May 2024 in June 2024 writes the
record. -/
theorem completion_record_iff_past_month_witness :
    ([("2024/05/02", ["1,000"])] : List (String × List String)).getLast? =
      some ("2024/05/02", ["1,000"])
    ∧ pySplit "2024/05/02" '/' = ["2024", "05", "02"]
    ∧ (["Date", "TradeVolume"] : List String).tail.Nodup
    ∧ (∀ f ∈ (["Date", "TradeVolume"] : List String).tail,
        f ≠ "symbol" ∧ f ≠ "year" ∧ f ≠ "month" ∧ f ≠ "day")
    ∧ pyInt "2024" = some 2024 ∧ pyInt "05" = some 5
    ∧ (((2024, 6) : Nat × Nat) ≠ ((2024 : Nat), (5 : Nat)) →
        processItemTail (2024, 6) "2024/06/10/12:00" 1101
          ["Date", "TradeVolume"] [("2024/05/02", ["1,000"])] =
          Except.ok (some { symbol := 1101, year := 2024, month := 5,
                            update_time := "2024/06/10/12:00" })) :=
  ⟨rfl, by decide, by decide, by decide, by decide, by decide,
    (completion_record_iff_past_month 2024 6 "2024/06/10/12:00" 1101
      ["Date", "TradeVolume"] [("2024/05/02", ["1,000"])] "2024/05/02"
      ["1,000"] "2024" "05" "02" 2024 5 rfl (by decide) (by decide)
      (by decide) (by decide) (by decide)).1⟩

/-- Claim C4 counterexample: with now = 2024-06 and a security listed
2024-06-10, the planner emits exactly the unit (2024, 6) — the month
containing now IS among the enumerated units, because the loop's end
sentinel is the month after the current one. -/
theorem current_month_is_enumerated :
    startRequestsCore [] (2024, 6) 1101 2024 6 = [(2024, 6)]
    ∧ (2024, 6) ∈ startRequestsCore [] (2024, 6) 1101 2024 6 := by decide

/-- Claim C4 (amended): the planner enumerates months from the starting
month up to and including the month containing now — i.e. up to, but
excluding, the month after the current one — in forward chronological
order: over an empty ledger the emitted list is exactly the chronological
month run whose first element is the starting month and whose last element
is the current month. -/
theorem planner_enumeration_range (cy cm sym ly lm : Nat)
    (hcm : validMonth cm) (hlm : validMonth lm)
    (hle : monthIdx (startMonth ly lm) ≤ monthIdx (cy, cm)) :
    startRequestsCore [] (cy, cm) sym ly lm =
      monthSeq (startMonth ly lm)
        (monthIdx (cy, cm) + 1 - monthIdx (startMonth ly lm))
    ∧ (startRequestsCore [] (cy, cm) sym ly lm).Pairwise
        (fun a b => monthIdx a < monthIdx b)
    ∧ (startRequestsCore [] (cy, cm) sym ly lm).head? =
        some (startMonth ly lm)
    ∧ (startRequestsCore [] (cy, cm) sym ly lm).getLast? = some (cy, cm) := by
  have hsv := startMonth_valid ly hlm
  have heq := startRequestsCore_nil_eq cy cm sym ly lm hcm hlm hle
  set s := startMonth ly lm with hs
  set d := monthIdx (cy, cm) + 1 - monthIdx s with hd
  refine ⟨heq, ?_, ?_, ?_⟩
  · rw [heq]
    exact monthSeq_pairwise hsv d
  · rw [heq]
    exact monthSeq_head s d (by omega)
  · rw [heq]
    obtain ⟨k, hk⟩ : ∃ k, d = k + 1 := ⟨d - 1, by omega⟩
    rw [hk, monthSeq_getLast]
    have hki : monthIdx (monthAdd s k) = monthIdx (cy, cm) := by
      have := (monthAdd_idx k s hsv).1
      omega
    rw [monthIdx_inj (monthAdd_idx k s hsv).2 hcm hki]

/-- Concrete run of amended Claim C4: listing 2021-03, now 2024-06. -/
theorem planner_enumeration_range_witness :
    validMonth 6 ∧ validMonth 3
    ∧ monthIdx (startMonth 2021 3) ≤ monthIdx ((2024 : Nat), (6 : Nat))
    ∧ (startRequestsCore [] (2024, 6) 1101 2021 3 =
        monthSeq (startMonth 2021 3)
          (monthIdx ((2024 : Nat), (6 : Nat)) + 1 -
            monthIdx (startMonth 2021 3))
      ∧ (startRequestsCore [] (2024, 6) 1101 2021 3).Pairwise
          (fun a b => monthIdx a < monthIdx b)
      ∧ (startRequestsCore [] (2024, 6) 1101 2021 3).head? = some (2021, 3)
      ∧ (startRequestsCore [] (2024, 6) 1101 2021 3).getLast? =
          some (2024, 6)) :=
  ⟨by decide, by decide, by decide,
    planner_enumeration_range 2024 6 1101 2021 3
      (by decide) (by decide) (by decide)⟩

/-- Claim C5: the starting month is the later of the listing month and the
global floor January 2010; it is always one of the two; the first emitted
unit over an empty ledger is the starting month; and the raw listing-date
string 2021/03/15 parses into a plan starting at (2021, 3). -/
theorem planner_start_month_max (ly lm cy cm sym : Nat)
    (hlm : validMonth lm) (hcm : validMonth cm)
    (hle : monthIdx (startMonth ly lm) ≤ monthIdx (cy, cm)) :
    monthIdx (startMonth ly lm) =
      max (monthIdx (ly, lm)) (monthIdx (2010, 1))
    ∧ (startMonth ly lm = (ly, lm) ∨ startMonth ly lm = (2010, 1))
    ∧ (startRequestsCore [] (cy, cm) sym ly lm).head? =
        some (startMonth ly lm)
    ∧ startRequestsFor [] (2024, 6) 1101 "2021/03/15" =
        Except.ok (startRequestsCore [] (2024, 6) 1101 2021 3) := by
  obtain ⟨hl1, hl2⟩ := hlm
  refine ⟨?_, ?_, ?_, by decide⟩
  · unfold startMonth
    split <;> simp [monthIdx] <;> omega
  · unfold startMonth
    split
    · exact Or.inr rfl
    · exact Or.inl rfl
  · rw [startRequestsCore_nil_eq cy cm sym ly lm hcm ⟨hl1, hl2⟩ hle]
    exact monthSeq_head _ _ (by omega)

/-- Concrete run of Claim C5: listing date 2021/03/15, floor 2010/01 —
the first emitted unit is (2021, 3), never (2010, 1). -/
theorem planner_start_month_max_witness :
    validMonth 3 ∧ validMonth 6
    ∧ monthIdx (startMonth 2021 3) ≤ monthIdx ((2024 : Nat), (6 : Nat))
    ∧ (monthIdx (startMonth 2021 3) =
        max (monthIdx ((2021 : Nat), (3 : Nat)))
          (monthIdx ((2010 : Nat), (1 : Nat)))
      ∧ (startMonth 2021 3 = (2021, 3) ∨ startMonth 2021 3 = (2010, 1))
      ∧ (startRequestsCore [] (2024, 6) 1101 2021 3).head? = some (2021, 3)
      ∧ startRequestsFor [] (2024, 6) 1101 "2021/03/15" =
          Except.ok (startRequestsCore [] (2024, 6) 1101 2021 3)) :=
  ⟨by decide, by decide, by decide,
    planner_start_month_max 2021 3 2024 6 1101
      (by decide) (by decide) (by decide)⟩

/-- Claim C6: construction accepts two *distinct* column objects carrying
the same name "a" and produces a table (with the name rendered twice in the
DDL), instead of raising: the duplicate check compares object identity, not
names, because the column dataclasses disable field equality. -/
theorem duplicate_column_names_accepted :
    mariadbTablePostInit "stock"
      [.col ⟨0, "a", false, .text⟩, .col ⟨1, "a", false, .text⟩] =
      Except.ok
        { table_name := "stock"
          columns := [⟨0, "a", false, .text⟩, ⟨1, "a", false, .text⟩]
          insert_query := "INSERT INTO stock VALUES (?, ?)"
          table_query := "CREATE TABLE IF NOT EXISTS stock (a TEXT, a TEXT)" }
    ∧ (⟨0, "a", false, .text⟩ : DataType) ≠ (⟨1, "a", false, .text⟩ : DataType)
    ∧ (⟨0, "a", false, .text⟩ : DataType).name =
        (⟨1, "a", false, .text⟩ : DataType).name := by decide

/-- Claim C7 counterexample: the Decimal DDL fragment carries a space after
the comma — "open DECIMAL(8, 3)", not "open DECIMAL(8,3)". -/
theorem decimal_definition_has_space :
    definition ⟨0, "open", false, .decimal (.member .SIGNED) 8 3⟩ =
      Except.ok "open DECIMAL(8, 3)"
    ∧ definition ⟨0, "open", false, .decimal (.member .SIGNED) 8 3⟩ ≠
      Except.ok "open DECIMAL(8,3)" := by decide

/-- Claim C7 (amended): definition() renders each column kind's DDL
fragment — Text as `<name> TEXT`, VarChar(n) as
`<name> VARCHAR(n) CHARACTER SET utf8`, each integer kind as
`<name> <SQL_TYPE> <ATTR>` with the attribute one of UNSIGNED, SIGNED,
ZEROFILL and a ValueError when the signedness tag is not a recognized
member, and Decimal(p, s) as `<name> DECIMAL(p, s)` (with a space after
the comma, and no signedness attribute). -/
theorem definition_renders_ddl (oid : Nat) (nm : String) (pk : Bool)
    (n p s : Nat) (a : NumericAttribute) (av : AttrValue) :
    definition ⟨oid, nm, pk, .text⟩ = Except.ok (nm ++ " TEXT")
    ∧ definition ⟨oid, nm, pk, .varChar n⟩ =
        Except.ok (nm ++ " VARCHAR(" ++ toString n ++ ") CHARACTER SET utf8")
    ∧ definition ⟨oid, nm, pk, .tinyInt (.member a)⟩ =
        Except.ok (nm ++ " TINYINT " ++ attrSQL a)
    ∧ definition ⟨oid, nm, pk, .smallInt (.member a)⟩ =
        Except.ok (nm ++ " SMALLINT " ++ attrSQL a)
    ∧ definition ⟨oid, nm, pk, .integer (.member a)⟩ =
        Except.ok (nm ++ " INT " ++ attrSQL a)
    ∧ definition ⟨oid, nm, pk, .bigInt (.member a)⟩ =
        Except.ok (nm ++ " BIGINT " ++ attrSQL a)
    ∧ (attrSQL a = "UNSIGNED" ∨ attrSQL a = "SIGNED" ∨ attrSQL a = "ZEROFILL")
    ∧ definition ⟨oid, nm, pk, .tinyInt .invalid⟩ = Except.error (.valueError
        "The attribute of TinyInt must be a valid member of NumericAttribute.")
    ∧ definition ⟨oid, nm, pk, .smallInt .invalid⟩ = Except.error (.valueError
        "The attribute of SmallInt must be a valid member of NumericAttribute.")
    ∧ definition ⟨oid, nm, pk, .integer .invalid⟩ = Except.error (.valueError
        "The attribute of Integer must be a valid member of NumericAttribute.")
    ∧ definition ⟨oid, nm, pk, .bigInt .invalid⟩ = Except.error (.valueError
        "The attribute of BigInt must be a valid member of NumericAttribute.")
    ∧ definition ⟨oid, nm, pk, .decimal av p s⟩ =
        Except.ok (nm ++ " DECIMAL(" ++ toString p ++ ", " ++ toString s
          ++ ")") := by
  cases a <;> cases av <;>
    exact ⟨rfl, rfl, rfl, rfl, rfl, rfl, by simp [attrSQL], rfl, rfl, rfl,
      rfl, rfl⟩

/-- Claim C8: calling insert with a value count different from the table's
arity raises AttributeError — not the documented ValueError — because the
error message's f-string reads the non-existent `self._table_name`; no
statement reaches the cursor on that call, and a matching count executes
the upsert statement with exactly the given values. -/
theorem insert_arity_raises_attribute_error :
    arityDemoClient.insert [.vint 7] =
      Except.error (.attributeError "_table_name")
    ∧ (∀ msg : String, arityDemoClient.insert [.vint 7] ≠
        Except.error (.valueError msg))
    ∧ arityDemoClient.insert [.vint 7, .vstr "x"] = Except.ok
        { _table := arityDemoTable
          executed := [(arityDemoTable.insert_query,
            [.vint 7, .vstr "x"])] } := by
  have he : arityDemoClient.insert [.vint 7] =
      Except.error (.attributeError "_table_name") := by decide
  refine ⟨he, ?_, by decide⟩
  intro msg h
  rw [he] at h
  simp at h

/-- Claim C9: for every ingested data row, a field value equal to the
sentinel "--" is stored as None and every other field value is stored with
its commas removed; the row's stored values are exactly the symbol, the
three date parts, then the mapped field values in order. -/
theorem sentinel_to_null_commas_stripped (symbol : Nat) (fields : List String)
    (data_list : List (String × List String)) (date : String)
    (rest : List String) (ys ms ds : String)
    (hmem : (date, rest) ∈ data_list)
    (hsplit : pySplit date '/' = [ys, ms, ds])
    (hnodup : fields.tail.Nodup)
    (hdisj : ∀ f ∈ fields.tail,
      f ≠ "symbol" ∧ f ≠ "year" ∧ f ≠ "month" ∧ f ≠ "day") :
    ((formatRow symbol fields date rest).map Prod.snd ∈
      processItemRows symbol fields data_list)
    ∧ (formatRow symbol fields date rest).map Prod.snd =
        [.vint symbol, .vstr ys, .vstr ms, .vstr ds] ++
          (List.zip fields.tail rest).map (fun p =>
            if p.2 = "--" then PyVal.vnone
            else PyVal.vstr (pyReplace p.2 ',' "")) := by
  constructor
  · exact List.mem_map_of_mem _ hmem
  · rw [formatRow_eq symbol fields date rest ys ms ds hsplit hnodup hdisj]
    simp [List.map_map, Function.comp]

/-- Concrete run of Claim C9: the value "1,234" is stored as "1234" and the
sentinel "--" as None. -/
theorem sentinel_to_null_commas_stripped_witness :
    (("2024/05/02", ["1,234", "--"]) ∈
      ([("2024/05/02", ["1,234", "--"])] : List (String × List String)))
    ∧ pySplit "2024/05/02" '/' = ["2024", "05", "02"]
    ∧ (["Date", "TradeVolume", "TradeValue"] : List String).tail.Nodup
    ∧ (∀ f ∈ (["Date", "TradeVolume", "TradeValue"] : List String).tail,
        f ≠ "symbol" ∧ f ≠ "year" ∧ f ≠ "month" ∧ f ≠ "day")
    ∧ ((formatRow 1101 ["Date", "TradeVolume", "TradeValue"] "2024/05/02"
          ["1,234", "--"]).map Prod.snd ∈
        processItemRows 1101 ["Date", "TradeVolume", "TradeValue"]
          [("2024/05/02", ["1,234", "--"])]
      ∧ (formatRow 1101 ["Date", "TradeVolume", "TradeValue"] "2024/05/02"
          ["1,234", "--"]).map Prod.snd =
          [.vint 1101, .vstr "2024", .vstr "05", .vstr "02"] ++
            (List.zip
              (["Date", "TradeVolume", "TradeValue"] : List String).tail
              ["1,234", "--"]).map (fun p =>
                if p.2 = "--" then PyVal.vnone
                else PyVal.vstr (pyReplace p.2 ',' ""))) :=
  ⟨by decide, by decide, by decide, by decide,
    sentinel_to_null_commas_stripped 1101
      ["Date", "TradeVolume", "TradeValue"] [("2024/05/02", ["1,234", "--"])]
      "2024/05/02" ["1,234", "--"] "2024" "05" "02"
      (by decide) (by decide) (by decide) (by decide)⟩

/-- Claim C10: constructing the daily-trading spider fails with an
AttributeError on reading `DailyTradingPipeline.output_folder_name` —
neither it nor `db_name` is defined on the pipeline class — so `__init__`
never returns and the planner entry point is unreachable. -/
theorem spider_init_attribute_error :
    dailyTradingSpiderInit =
      Except.error (.attributeError "output_folder_name")
    ∧ "output_folder_name" ∉ dailyTradingPipelineClassAttrs
    ∧ "db_name" ∉ dailyTradingPipelineClassAttrs := by decide

end TaiwanStock
